import Mathlib

/-!
Verification of the path-confinement and filesystem-tool layer of
`filesystem-mcp/server.py`.

The Python source is shallowly embedded: paths are lists of segments
(`List String`), the filesystem is an association list from absolute
segment paths to nodes (file with text content, or directory), and every
tool of the server is a Lean function from a working root, a filesystem
state and the tool's validated inputs to the new state and/or the exact
response string the Python code builds.  OS-level aspects that the claims
do not touch (stat sizes and modification times, permission failures
while reading, symbolic links) are outside the model and noted where a
definition elides them.
-/

/- ── Path model ─────────────────────────────────────────────────────────
A POSIX absolute path is a list of segments; `[]` is the root `/`.
`WORK_DIR` (`Path(os.getcwd()).resolve()`) is an arbitrary such list. -/

/-- Split a raw string on `/` (aux loop over characters; `cur` is the
current segment, reversed). -/
def splitSegsGo : List Char → List Char → List String
  | [], cur => [String.mk cur.reverse]
  | c :: rest, cur =>
    if c = '/' then String.mk cur.reverse :: splitSegsGo rest []
    else splitSegsGo rest (c :: cur)

/-- Split a raw path string on `/`. -/
def splitOnSlash (s : String) : List String :=
  splitSegsGo s.data []

/-- Python `Path(raw)` parsing: split on `/`, drop empty segments and `.`
segments (pathlib drops both at parse time); `..` segments are kept. -/
def parseSegs (raw : String) : List String :=
  (splitOnSlash raw).filter (fun s => !(s == "") && !(s == "."))

/-- Whether the raw string denotes an absolute path (leading `/`). -/
def isAbsRaw (raw : String) : Bool :=
  match raw.data with
  | '/' :: _ => true
  | _ => false

/-- Lexical `..` normalization performed by `Path.resolve()` in the
absence of symbolic links: `..` pops the last segment, and at the root it
is dropped (`/.. = /`).  Symbolic-link resolution is outside the model. -/
def normSegs (segs : List String) : List String :=
  segs.foldl (fun acc s => if s == ".." then acc.dropLast else acc ++ [s]) []

/-- `(WORK_DIR / raw).resolve()`: absolute raw paths replace the anchor,
relative ones are appended to it, then `..` is normalized away. -/
def resolvePath (wd : List String) (raw : String) : List String :=
  normSegs ((if isAbsRaw raw then [] else wd) ++ parseSegs raw)

/-- `str(p)` for an absolute segment path: `/` followed by the segments
joined with `/` (the root itself renders as `/`). -/
def renderAbs (segs : List String) : String :=
  String.mk ('/' :: (String.intercalate ("/") segs).data)

/-- Python `str.startswith`: raw string prefix on code points. -/
def strStartsWith (s pre : String) : Bool :=
  pre.data.isPrefixOf s.data

/-- The `ValueError` message raised by `_safe_path` (it names the
offending raw path and the working root). -/
def confinementMsg (raw : String) (wd : List String) : String :=
  "Path '" ++ raw ++ "' resolves outside the working directory '" ++
    renderAbs wd ++ "'. Only paths inside the working directory are allowed."

/-- `_safe_path`: resolve `raw` against `WORK_DIR` and accept the result
iff `str(resolved).startswith(str(WORK_DIR))` — a raw string-prefix
check, not a segment-boundary check. -/
def safePath (wd : List String) (raw : String) : Except String (List String) :=
  let resolved := resolvePath wd raw
  if strStartsWith (renderAbs resolved) (renderAbs wd) then Except.ok resolved
  else Except.error (confinementMsg raw wd)

/-- Modelled from the spec's words (§4.1 edge case): the segment-boundary
("full path-segment") containment test that the spec contrasts with the
raw string-prefix check: the root's segment list must be a prefix of the
resolved path's segment list. -/
def segWithinRoot (wd p : List String) : Bool :=
  List.isPrefixOf wd p

/- ── Filesystem state ──────────────────────────────────────────────────
The filesystem is an association list from absolute segment paths to
nodes.  The list order is arbitrary (it stands in for the arbitrary
enumeration order of `iterdir`/`rglob` before the code sorts). -/

/-- A filesystem node: a text file with its decoded content, or a
directory. -/
inductive Node where
  | file (content : String) : Node
  | dir : Node
deriving DecidableEq, Repr

/-- Filesystem state. -/
structure FS where
  entries : List (List String × Node)
deriving DecidableEq, Repr

/-- Look a path up in the state. -/
def FS.lookup (fs : FS) (p : List String) : Option Node :=
  (fs.entries.find? (fun e => e.1 == p)).map (fun e => e.2)

/-- `path.exists()`. -/
def FS.pathExists (fs : FS) (p : List String) : Bool :=
  (fs.lookup p).isSome

/-- `path.is_dir()`. -/
def FS.isDirAt (fs : FS) (p : List String) : Bool :=
  fs.lookup p == some Node.dir

/-- `path.is_file()`. -/
def FS.isFileAt (fs : FS) (p : List String) : Bool :=
  match fs.lookup p with
  | some (Node.file _) => true
  | _ => false

/-- Replace or create the node at `p`. -/
def FS.insert (fs : FS) (p : List String) (n : Node) : FS :=
  ⟨(p, n) :: fs.entries.filter (fun e => !(e.1 == p))⟩

/-- Remove the node at `p` (`path.unlink()`). -/
def FS.erase (fs : FS) (p : List String) : FS :=
  ⟨fs.entries.filter (fun e => !(e.1 == p))⟩

/- ── Exceptions and `_handle_error` ──────────────────────────────────── -/

/-- The Python exceptions the tools can catch, with the data
`_handle_error` reads off them (`e.filename` for the OS errors it names,
`str(e)` otherwise). -/
inductive PyExc where
  | fileNotFound (filename : String) : PyExc
  | permissionDenied (filename : String) : PyExc
  | valueError (msg : String) : PyExc
  | isADirectory (msg : String) : PyExc
  | fileExists (msg : String) : PyExc
deriving DecidableEq, Repr

/-- `_handle_error`: the first three constructors hit the dedicated
`isinstance` branches; the OS errors with no dedicated branch fall into
the generic `f"Error: {type(e).__name__}: {e}"` arm, written out here per
constructor. -/
def handleError : PyExc → String
  | PyExc.fileNotFound fn =>
      "Error: File not found — " ++ fn ++ ". Check the path and try again."
  | PyExc.permissionDenied fn =>
      "Error: Permission denied — " ++ fn ++ ". You don't have access to this file."
  | PyExc.valueError msg => "Error: " ++ msg
  | PyExc.isADirectory msg => "Error: IsADirectoryError: " ++ msg
  | PyExc.fileExists msg => "Error: FileExistsError: " ++ msg

/- ── fs_write_file ───────────────────────────────────────────────────── -/

/-- Number of lines the write confirmation reports:
`params.content.count(chr(10)) + 1`. -/
def writeFileLineCount (content : String) : Nat :=
  content.data.count '\n' + 1

/-- Thousands separators of Python's `f"{n:,}"` formatting (aux: digits
reversed, comma after every third). -/
def commaRev : List Char → List Char
  | d1 :: d2 :: d3 :: d4 :: rest => d1 :: d2 :: d3 :: ',' :: commaRev (d4 :: rest)
  | l => l

/-- Python `f"{n:,}"` for a natural number. -/
def pyCommaFmt (n : Nat) : String :=
  String.mk ((commaRev (Nat.repr n).data.reverse).reverse)

/-- The `already exists` early return of `fs_write_file` (the spec's
`AlreadyExistsError`). -/
def alreadyExistsMsg (path : String) : String :=
  "Error: '" ++ path ++ "' already exists. Set overwrite=true to replace it."

/-- The success confirmation of `fs_write_file` (UTF-8 byte count and
line count). -/
def writeOkMsg (path content : String) : String :=
  "✓ Written " ++ pyCommaFmt content.utf8ByteSize ++ " bytes to '" ++ path ++
    "'.\nLines: " ++ Nat.repr (writeFileLineCount content)

/-- `target.parent.mkdir(parents=True, exist_ok=True)`, fuelled by the
path length (the fuel never runs out when `fuel ≥ p.length`; the `0`
fallback is unreachable from `mkdirAll`).  When a strict ancestor of the
path is a file, Python raises `NotADirectoryError` for the full path
rather than this model's `FileExistsError` for the ancestor; no theorem
below reaches that branch (their hypotheses exit earlier). -/
def mkdirAllGo (fs : FS) : Nat → List String → Except PyExc FS
  | _, [] => Except.ok fs
  | 0, _ => Except.ok fs
  | fuel + 1, p =>
    match fs.lookup p with
    | some Node.dir => Except.ok fs
    | some (Node.file _) =>
        Except.error (PyExc.fileExists ("[Errno 17] File exists: '" ++ renderAbs p ++ "'"))
    | none =>
        match mkdirAllGo fs fuel p.dropLast with
        | Except.error e => Except.error e
        | Except.ok fs1 => Except.ok (fs1.insert p Node.dir)

/-- Create the directory `p` and any missing ancestors; existing
directories are fine (`exist_ok=True`), an existing file raises
`FileExistsError`. -/
def mkdirAll (fs : FS) (p : List String) : Except PyExc FS :=
  mkdirAllGo fs p.length p

/-- `target.write_text(content, encoding="utf-8")`: writing onto a
directory raises `IsADirectoryError`; otherwise the file is created or
its content replaced entirely. -/
def writeText (fs : FS) (p : List String) (content : String) : Except PyExc FS :=
  match fs.lookup p with
  | some Node.dir =>
      Except.error (PyExc.isADirectory ("[Errno 21] Is a directory: '" ++ renderAbs p ++ "'"))
  | _ => Except.ok (fs.insert p (Node.file content))

/-- `fs_write_file`: resolve, gate on `exists() and not overwrite`,
create parent directories, write; every raised exception is converted to
a string by `_handle_error`.  Returns the state after the call and the
exact response string. -/
def fs_write_file (wd : List String) (fs : FS) (path content : String)
    (overwrite : Bool) : FS × String :=
  match safePath wd path with
  | Except.error msg => (fs, handleError (PyExc.valueError msg))
  | Except.ok target =>
    if fs.pathExists target && !overwrite then
      (fs, alreadyExistsMsg path)
    else
      match mkdirAll fs target.dropLast with
      | Except.error e => (fs, handleError e)
      | Except.ok fs1 =>
        match writeText fs1 target content with
        | Except.error e => (fs1, handleError e)
        | Except.ok fs2 => (fs2, writeOkMsg path content)

/- ── fs_delete_file ──────────────────────────────────────────────────── -/

/-- The `does not exist` early return of `fs_delete_file` (the spec's
`NotFoundError`). -/
def deleteNotExistMsg (path : String) : String :=
  "Error: '" ++ path ++ "' does not exist."

/-- The `is a directory` early return of `fs_delete_file` (the spec's
`IsDirectoryError`). -/
def deleteIsDirMsg (path : String) : String :=
  "Error: '" ++ path ++ "' is a directory. This tool only deletes files, not directories."

/-- The success confirmation of `fs_delete_file`. -/
def deleteOkMsg (path : String) : String :=
  "✓ Deleted '" ++ path ++ "'."

/-- `fs_delete_file`: resolve, reject missing paths and directories,
unlink files. -/
def fs_delete_file (wd : List String) (fs : FS) (path : String) : FS × String :=
  match safePath wd path with
  | Except.error msg => (fs, handleError (PyExc.valueError msg))
  | Except.ok target =>
    if !(fs.pathExists target) then (fs, deleteNotExistMsg path)
    else if fs.isDirAt target then (fs, deleteIsDirMsg path)
    else (fs.erase target, deleteOkMsg path)

/- ── str.splitlines and fs_read_file ─────────────────────────────────── -/

/-- The line-boundary characters of Python `str.splitlines`. -/
def lineBreakChar (c : Char) : Bool :=
  c = '\n' || c = '\r' || c = '\x0b' || c = '\x0c' || c = '\x1c' ||
    c = '\x1d' || c = '\x1e' || c = '\x85' || c = '\u2028' || c = '\u2029'

/-- First pass of `str.splitlines`: a `\r\n` pair counts as a single
boundary, so collapse it to `\n` before splitting. -/
def normEOL : List Char → List Char
  | [] => []
  | [c] => [c]
  | c :: d :: rest2 =>
    if c = '\r' ∧ d = '\n' then '\n' :: normEOL rest2
    else c :: normEOL (d :: rest2)

/-- Split on single boundary characters: every boundary ends a line and
a trailing boundary does not open a final empty line. -/
def splitBreaks : List Char → List (List Char)
  | [] => []
  | c :: rest =>
    if lineBreakChar c then
      [] :: splitBreaks rest
    else
      match splitBreaks rest with
      | [] => [[c]]
      | l :: ls => (c :: l) :: ls

/-- Python `str.splitlines` over the character list. -/
def splitlinesList (l : List Char) : List (List Char) :=
  splitBreaks (normEOL l)

/-- Python `text.splitlines()`. -/
def pySplitlines (s : String) : List String :=
  (splitlinesList s.data).map String.mk

/-- Line count reported by `fs_file_info` for a file:
`text.count("\n") + 1`. -/
def fileInfoLineCount (text : String) : Nat :=
  text.data.count '\n' + 1

/-- The `is a directory` early return of `fs_read_file`. -/
def readIsDirMsg (path : String) : String :=
  "Error: '" ++ path ++ "' is a directory. Use fs_list_directory to list it."

/-- The truncation note appended when `max_lines` is exceeded. -/
def truncNote (maxLines totalLines : Nat) : String :=
  "\n\n[Showing " ++ Nat.repr maxLines ++ " of " ++ Nat.repr totalLines ++
    " lines. Set max_lines higher to see more.]"

/-- Result of `fs_read_file`: the content part and the truncation note
of the returned string.  The trailing metadata block (`File: … | … bytes
| Modified: …`) comes from a live `stat` call (size, mtime) and is
outside the model. -/
structure ReadOut where
  content : String
  truncation_note : String
deriving DecidableEq, Repr

/-- `fs_read_file`: resolve, redirect directories, read and decode (the
`errors="replace"` decode never fails, so a stored file always yields its
content; a missing file raises `FileNotFoundError` whose `filename` is
the resolved path), split into lines only to count, and truncate when
`max_lines` is set (validated `ge=1`) and exceeded. -/
def fs_read_file (wd : List String) (fs : FS) (path : String)
    (max_lines : Option Nat) : Except String ReadOut :=
  match safePath wd path with
  | Except.error msg => Except.error (handleError (PyExc.valueError msg))
  | Except.ok target =>
    if fs.isDirAt target then Except.error (readIsDirMsg path)
    else
      match fs.lookup target with
      | some (Node.file text) =>
        let lines := pySplitlines text
        let total_lines := lines.length
        match max_lines with
        | some m =>
          if m ≠ 0 ∧ m < total_lines then
            Except.ok ⟨String.intercalate ("\n") (lines.take m), truncNote m total_lines⟩
          else Except.ok ⟨text, ""⟩
        | none => Except.ok ⟨text, ""⟩
      | _ => Except.error (handleError (PyExc.fileNotFound (renderAbs target)))

/- ── _file_info and fs_file_info ─────────────────────────────────────── -/

/-- `p.name`: the last segment (empty for the root `/`). -/
def nameOf (p : List String) : String :=
  p.getLast?.getD ""

/-- `str(p.relative_to(WORK_DIR))`: the segments below the root joined
with `/`, or `.` for the root itself.  `relative_to` raises `ValueError`
when `wd` is not a segment prefix of `p` (which `_handle_error` would
turn into an error response), while this definition is total; therefore
every theorem whose conclusion depends on a formatted relative path
carries the segment-prefix condition as a hypothesis, and conclusions
that read only the other descriptor fields (such as `is_dir`) do
not. -/
def relPathStr (wd p : List String) : String :=
  let r := p.drop wd.length
  if r.isEmpty then "." else String.intercalate ("/") r

/-- The fields of the `_file_info` dict that the claims touch.  The
`size_bytes` and `modified` fields come from a live `stat` call and are
outside the model. -/
structure EntryInfo where
  name : String
  path : String
  is_dir : Bool
deriving DecidableEq, Repr

/-- `_file_info(path)` for a node of the modelled state. -/
def fileInfoOf (wd p : List String) (n : Node) : EntryInfo :=
  ⟨nameOf p, relPathStr wd p, n == Node.dir⟩

/-- `PurePath.suffix`: the final `.`-extension of the name, empty when
the last dot is leading or trailing. -/
def pathSuffix (name : String) : String :=
  let rev := name.data.reverse
  match rev.findIdx? (fun c => c = '.') with
  | some j =>
      if 1 ≤ j ∧ 1 ≤ name.data.length - 1 - j then String.mk ((rev.take (j + 1)).reverse)
      else ""
  | none => ""

/-- Response of `fs_file_info`: the `_file_info` fields plus, for plain
files, `line_count` (`text.count("\n") + 1`) and `extension`
(`target.suffix or "(none)"`). -/
structure InfoOut where
  name : String
  path : String
  is_dir : Bool
  line_count : Option Nat
  extension : Option String
deriving DecidableEq, Repr

/-- `fs_file_info`: resolve, stat (raising `FileNotFoundError` when the
path is absent), and for files add the line count and extension.  In the
model a stored file always reads successfully (`errors="replace"`), so
the `line_count = None` read-failure fallback is unreachable. -/
def fs_file_info (wd : List String) (fs : FS) (path : String) : Except String InfoOut :=
  match safePath wd path with
  | Except.error msg => Except.error (handleError (PyExc.valueError msg))
  | Except.ok target =>
    match fs.lookup target with
    | none => Except.error (handleError (PyExc.fileNotFound (renderAbs target)))
    | some Node.dir =>
        Except.ok ⟨nameOf target, relPathStr wd target, true, none, none⟩
    | some (Node.file text) =>
        let suf := pathSuffix (nameOf target)
        Except.ok ⟨nameOf target, relPathStr wd target, false,
          some (fileInfoLineCount text), some (if suf == "" then "(none)" else suf)⟩

/- ── Comparisons (Python `<` on str, tuple and Path) ─────────────────── -/

/-- Python `<` on single characters: code-point order. -/
def charLtB (a b : Char) : Bool :=
  decide (a.toNat < b.toNat)

/-- Lexicographic strict order on lists from a strict order on elements
(Python's sequence comparison). -/
def lexLtB {α : Type} [DecidableEq α] (ltB : α → α → Bool) : List α → List α → Bool
  | [], [] => false
  | [], _ :: _ => true
  | _ :: _, [] => false
  | a :: as, b :: bs => ltB a b || (decide (a = b) && lexLtB ltB as bs)

/-- Python `<` on strings: code-point lexicographic. -/
def strLtB (a b : String) : Bool :=
  lexLtB charLtB a.data b.data

/-- Python `<` on `Path` values: lexicographic over the parts tuple. -/
def segsLtB (p q : List String) : Bool :=
  lexLtB strLtB p q

/-- Non-strict segment-path order (used to state sortedness). -/
def segsLeB (p q : List String) : Bool :=
  !(segsLtB q p)

/- ── Python `sorted` (stable) ────────────────────────────────────────── -/

/-- Stable insertion of `x` into `l`: `x` goes before the first element
it compares `≤` to, hence before any later element with an equal key. -/
def insertLe {α : Type} (leB : α → α → Bool) (x : α) : List α → List α
  | [] => [x]
  | y :: ys => if leB x y then x :: y :: ys else y :: insertLe leB x ys

/-- Stable sort by `leB` (a stable sort's output is unique, so this
agrees with Python's `sorted`). -/
def sortedBy {α : Type} (leB : α → α → Bool) : List α → List α
  | [] => []
  | x :: xs => insertLe leB x (sortedBy leB xs)

/- ── fs_list_directory ───────────────────────────────────────────────── -/

/-- `p.is_file()` as a node predicate. -/
def isFileNode : Node → Bool
  | Node.file _ => true
  | Node.dir => false

/-- Python `str.lower` (ASCII model; the names the tools compare are code
points, where `Char.toLower` matches `str.lower` on ASCII). -/
def pyLower (s : String) : String :=
  String.mk (s.data.map Char.toLower)

/-- The sort key of `fs_list_directory`:
`lambda p: (p.is_file(), p.name.lower())`. -/
def childKey (e : List String × Node) : Bool × String :=
  (isFileNode e.2, pyLower (nameOf e.1))

/-- Python `<` on the `(bool, str)` key tuples (`False < True`). -/
def keyPairLtB (a b : Bool × String) : Bool :=
  (!a.1 && b.1) || (decide (a.1 = b.1) && strLtB a.2 b.2)

/-- The `sorted` comparison of `fs_list_directory`: `x ≤ y` iff the key
of `y` is not strictly below the key of `x`. -/
def listDirLeB (a b : List String × Node) : Bool :=
  !(keyPairLtB (childKey b) (childKey a))

/-- `target.iterdir()`: the direct children of `target` present in the
state, in the state's (arbitrary) enumeration order. -/
def iterdirChildren (fs : FS) (target : List String) : List (List String × Node) :=
  fs.entries.filter (fun e => e.1.dropLast == target && !(e.1 == []))

/-- `str(Path(params.path))` for the `directory` echo field. -/
def pathStr (raw : String) : String :=
  if isAbsRaw raw then renderAbs (parseSegs raw)
  else
    match parseSegs raw with
    | [] => "."
    | segs => String.intercalate ("/") segs

/-- The `is not a directory` early return of `fs_list_directory` (the
spec's `NotADirectoryError`). -/
def listDirNotDirMsg (path : String) : String :=
  "Error: '" ++ path ++ "' is not a directory."

/-- Response of `fs_list_directory`. -/
structure ListDirOut where
  directory : String
  count : Nat
  entries : List EntryInfo
deriving DecidableEq, Repr

/-- `fs_list_directory`: resolve, require a directory, sort the children
by `(is_file, name.lower())`, then drop dotfiles unless `show_hidden`. -/
def fs_list_directory (wd : List String) (fs : FS) (path : String)
    (show_hidden : Bool) : Except String ListDirOut :=
  match safePath wd path with
  | Except.error msg => Except.error (handleError (PyExc.valueError msg))
  | Except.ok target =>
    if !(fs.isDirAt target) then Except.error (listDirNotDirMsg path)
    else
      let sortedCh := sortedBy listDirLeB (iterdirChildren fs target)
      let kept := sortedCh.filter (fun e => show_hidden || !(strStartsWith (nameOf e.1) (".")))
      let entries := kept.map (fun e => fileInfoOf wd e.1 e.2)
      Except.ok ⟨pathStr path, entries.length, entries⟩

/- ── Glob matching (pathlib `glob`/`rglob`) ──────────────────────────── -/

/-- One compiled token of an `fnmatch` pattern segment. -/
inductive GlobTok where
  | star : GlobTok
  | anyChar : GlobTok
  | lit (c : Char) : GlobTok
  | cls (neg : Bool) (content : List Char) : GlobTok
deriving DecidableEq, Repr

/-- Scan up to the closing `]` of a character class; `none` when the
class is unterminated. -/
def classSplit : List Char → Option (List Char × List Char)
  | [] => none
  | c :: rest =>
    if c = ']' then some ([], rest)
    else
      match classSplit rest with
      | some (content, rem) => some (c :: content, rem)
      | none => none

/-- Parse a character class after `[`: optional `!` negation, a `]` in
first position is literal content; `none` (literal `[`) when there is no
closing `]` — fnmatch's rules. -/
def classParse (ps : List Char) : Option (Bool × List Char × List Char) :=
  let negSplit : Bool × List Char :=
    match ps with
    | '!' :: r => (true, r)
    | _ => (false, ps)
  match negSplit with
  | (neg, ']' :: r2) =>
    match classSplit r2 with
    | some (content, rem) => some (neg, ']' :: content, rem)
    | none => none
  | (neg, other) =>
    match classSplit other with
    | some (content, rem) => some (neg, content, rem)
    | none => none

/-- Does a character-class body match `c`? Ranges `a-z` by code point,
everything else literal (a trailing `-` is literal). -/
def classMatches : List Char → Char → Bool
  | a :: '-' :: b :: rest, c =>
      (a.toNat ≤ c.toNat && c.toNat ≤ b.toNat) || classMatches rest c
  | a :: rest, c => a = c || classMatches rest c
  | [], _ => false

/-- Compile an `fnmatch` segment pattern to tokens (fuelled by the
pattern length; with `fuel ≥ length` the `0` fallback is unreachable). -/
def compileSegGo : Nat → List Char → List GlobTok
  | _, [] => []
  | 0, _ => []
  | fuel + 1, c :: rest =>
    if c = '[' then
      match classParse rest with
      | some (neg, content, rest2) => GlobTok.cls neg content :: compileSegGo fuel rest2
      | none => GlobTok.lit '[' :: compileSegGo fuel rest
    else if c = '*' then GlobTok.star :: compileSegGo fuel rest
    else if c = '?' then GlobTok.anyChar :: compileSegGo fuel rest
    else GlobTok.lit c :: compileSegGo fuel rest

/-- Compile an `fnmatch` segment pattern. -/
def compileSeg (p : List Char) : List GlobTok :=
  compileSegGo p.length p

/-- Match compiled tokens against a name: `*` matches any run (any
suffix continuation), `?` any one character, classes one character. -/
def tokMatch : List GlobTok → List Char → Bool
  | [], cs => cs.isEmpty
  | GlobTok.star :: ps, cs => cs.tails.any (fun t => tokMatch ps t)
  | GlobTok.anyChar :: ps, cs =>
    match cs with
    | [] => false
    | _ :: cs2 => tokMatch ps cs2
  | GlobTok.lit c :: ps, cs =>
    match cs with
    | [] => false
    | d :: cs2 => decide (c = d) && tokMatch ps cs2
  | GlobTok.cls neg content :: ps, cs =>
    match cs with
    | [] => false
    | d :: cs2 => (neg != classMatches content d) && tokMatch ps cs2

/-- `fnmatch` of one path segment against one pattern segment. -/
def fnmatchSeg (p s : List Char) : Bool :=
  tokMatch (compileSeg p) s

/-- The recursive-wildcard pattern segment `**`. -/
def starStarSeg : List Char :=
  ['*', '*']

/-- Match a list of pattern segments against a relative path's segments:
a `**` segment matches any number of leading segments (pathlib gives
`**` this recursive meaning inside plain `glob` too); any other segment
consumes exactly one path segment via `fnmatch`. -/
def globMatchSegs : List (List Char) → List (List Char) → Bool
  | [], segs => segs.isEmpty
  | p :: ps, segs =>
    if p = starStarSeg then segs.tails.any (fun t => globMatchSegs ps t)
    else
      match segs with
      | [] => false
      | s :: ss => fnmatchSeg p s && globMatchSegs ps ss

/-- Full per-entry glob test: the segments must match, and a pattern
whose final segment is `**` only yields directories (pathlib's recursive
wildcard selector). -/
def globEntryMatch (patSegs rel : List (List Char)) (n : Node) : Bool :=
  globMatchSegs patSegs rel &&
    (if patSegs.getLast? == some starStarSeg then n == Node.dir else true)

/-- `root.glob(pattern)` over the modelled state: every entry below
`root` whose relative segments match the pattern (parsed like a path,
pathlib-style).  `root.rglob(pat)` is `root.glob("**/" + pat)`. -/
def globEntries (fs : FS) (root : List String) (pattern : String) :
    List (List String × Node) :=
  let patSegs := (parseSegs pattern).map (fun s => s.data)
  fs.entries.filter (fun e =>
    List.isPrefixOf root e.1 &&
      globEntryMatch patSegs ((e.1.drop root.length).map (fun s => s.data)) e.2)

/- ── fs_search_files ─────────────────────────────────────────────────── -/

/-- The `is not a directory` early return of `fs_search_files`. -/
def searchNotDirMsg (directory : String) : String :=
  "Error: '" ++ directory ++ "' is not a directory."

/-- The `sorted` comparison over glob results (`Path` order: parts
tuple, lexicographic). -/
def globSortLeB (a b : List String × Node) : Bool :=
  !(segsLtB b.1 a.1)

/-- Response of `fs_search_files` (`found` is the JSON `matches`
array; `matches` cannot be a field name in Lean). -/
structure SearchOut where
  pattern : String
  directory : String
  recursive : Bool
  count : Nat
  found : List EntryInfo
deriving DecidableEq, Repr

/-- `fs_search_files`: resolve, require a directory, pick `rglob` (i.e.
glob of `**/` + pattern) or plain `glob` by the `recursive` flag, sort,
and keep only plain files. -/
def fs_search_files (wd : List String) (fs : FS) (pattern directory : String)
    (recursive : Bool) : Except String SearchOut :=
  match safePath wd directory with
  | Except.error msg => Except.error (handleError (PyExc.valueError msg))
  | Except.ok root =>
    if !(fs.isDirAt root) then Except.error (searchNotDirMsg directory)
    else
      let pat := if recursive then "**/" ++ pattern else pattern
      let sortedE := sortedBy globSortLeB (globEntries fs root pat)
      let ms := (sortedE.filter (fun e => isFileNode e.2)).map (fun e => fileInfoOf wd e.1 e.2)
      Except.ok ⟨pattern, directory, recursive, ms.length, ms⟩

/- ── fs_grep ─────────────────────────────────────────────────────────── -/

/-- One grep hit: file path relative to the root, 1-based line number,
the matching line with trailing whitespace stripped. -/
structure GrepMatch where
  file : String
  line : Nat
  content : String
deriving DecidableEq, Repr

/-- Response of `fs_grep`. -/
structure GrepOut where
  search_text : String
  files_searched : Nat
  matches_found : Nat
  truncated : Bool
  results : List GrepMatch
deriving DecidableEq, Repr

/-- The whitespace characters Python `str.rstrip()` strips (ASCII
model). -/
def isPySpace (c : Char) : Bool :=
  c = ' ' || c = '\t' || c = '\n' || c = '\r' || c = '\x0b' || c = '\x0c'

/-- Python `line.rstrip()`. -/
def pyRstrip (s : String) : String :=
  String.mk ((s.data.reverse.dropWhile isPySpace).reverse)

/-- Python `needle in haystack` on strings: substring containment. -/
def strContainsSub (hay ndl : String) : Bool :=
  hay.data.tails.any (fun t => ndl.data.isPrefixOf t)

/-- Does a line match: `needle in (line if case_sensitive else
line.lower())`, the needle having been lowercased once outside. -/
def lineHitB (needle : String) (cs : Bool) (line : String) : Bool :=
  strContainsSub (if cs then line else pyLower line) needle

/-- The inner line loop of `fs_grep`: append each hit and break as soon
as `len(results) >= max_results`. -/
def scanLinesCapped (needle : String) (cs : Bool) (maxR : Nat) (fileRel : String) :
    List String → Nat → List GrepMatch → List GrepMatch
  | [], _, acc => acc
  | line :: rest, lineno, acc =>
    if lineHitB needle cs line then
      let acc1 := acc ++ [⟨fileRel, lineno, pyRstrip line⟩]
      if maxR ≤ acc1.length then acc1
      else scanLinesCapped needle cs maxR fileRel rest (lineno + 1) acc1
    else scanLinesCapped needle cs maxR fileRel rest (lineno + 1) acc

/-- The outer file loop of `fs_grep`: skip non-files, scan each file's
lines (counting it in `files_searched` first), and break once the cap is
reached.  Files that raise on open (permissions) are outside the model;
decoding never fails (`errors="replace"`). -/
def grepLoop (fs : FS) (wd : List String) (needle : String) (cs : Bool) (maxR : Nat) :
    List (List String) → List GrepMatch → Nat → List GrepMatch × Nat
  | [], acc, n => (acc, n)
  | p :: rest, acc, n =>
    match fs.lookup p with
    | some (Node.file text) =>
      let acc1 := scanLinesCapped needle cs maxR (relPathStr wd p) (pySplitlines text) 1 acc
      if maxR ≤ acc1.length then (acc1, n + 1)
      else grepLoop fs wd needle cs maxR rest acc1 (n + 1)
    | _ => grepLoop fs wd needle cs maxR rest acc n

/-- Non-strict `Path` order on plain segment paths. -/
def pathsLeB (p q : List String) : Bool :=
  !(segsLtB q p)

/-- `sorted(root.rglob(file_pattern))` as a path list. -/
def grepSortedPaths (fs : FS) (root : List String) (filePattern : String) :
    List (List String) :=
  sortedBy pathsLeB ((globEntries fs root ("**/" ++ filePattern)).map (fun e => e.1))

/-- `fs_grep`: resolve, lowercase the needle once unless case-sensitive,
walk the sorted rglob results with the capped loop, and report
`truncated = len(results) >= max_results`. -/
def fs_grep (wd : List String) (fs : FS) (text directory filePattern : String)
    (cs : Bool) (maxR : Nat) : Except String GrepOut :=
  match safePath wd directory with
  | Except.error msg => Except.error (handleError (PyExc.valueError msg))
  | Except.ok root =>
    let needle := if cs then text else pyLower text
    let paths := grepSortedPaths fs root filePattern
    let rn := grepLoop fs wd needle cs maxR paths [] 0
    Except.ok ⟨text, rn.2, rn.1.length, decide (maxR ≤ rn.1.length), rn.1⟩

/-- Reference enumeration for the truncation claims: every match of
every readable file, in encounter order (file order × line order), with
no cap.  The capped loop is proved to return a prefix of this list. -/
def grepLineMatches (needle : String) (cs : Bool) (fileRel : String) :
    List String → Nat → List GrepMatch
  | [], _ => []
  | line :: rest, lineno =>
    if lineHitB needle cs line then
      ⟨fileRel, lineno, pyRstrip line⟩ :: grepLineMatches needle cs fileRel rest (lineno + 1)
    else grepLineMatches needle cs fileRel rest (lineno + 1)

/-- All matches over a path list, uncapped, in encounter order. -/
def grepAllMatches (fs : FS) (wd : List String) (needle : String) (cs : Bool) :
    List (List String) → List GrepMatch
  | [] => []
  | p :: rest =>
    (match fs.lookup p with
     | some (Node.file text) => grepLineMatches needle cs (relPathStr wd p) (pySplitlines text) 1
     | _ => []) ++ grepAllMatches fs wd needle cs rest

/- ── Concrete fixtures used by counterexamples and witnesses ─────────── -/

/-- A small tree under root `/work`: a file `a.txt`, a subdirectory
`sub`, and a file `sub/b.txt`. -/
def sampleTreeFS : FS :=
  ⟨[(["work"], Node.dir), (["work", "a.txt"], Node.file ("x")),
    (["work", "sub"], Node.dir), (["work", "sub", "b.txt"], Node.file ("y"))]⟩

/-- A tree with text content for grep scenarios. -/
def sampleGrepFS : FS :=
  ⟨[(["work"], Node.dir),
    (["work", "b.txt"], Node.file ("TODO one\nnothing\ntodo two  ")),
    (["work", "a.txt"], Node.file ("x TODO\n")),
    (["work", "sub"], Node.dir),
    (["work", "sub", "c.txt"], Node.file ("TODO3"))]⟩

/-- A directory with mixed children (files, a directory, a dotfile) in
scrambled order, for the listing-order scenarios. -/
def sampleListFS : FS :=
  ⟨[(["work"], Node.dir),
    (["work", "b.txt"], Node.file ("1")),
    (["work", "Adir"], Node.dir),
    (["work", ".hidden"], Node.file ("2")),
    (["work", "a.txt"], Node.file ("3"))]⟩

/- ── Lemmas about the strict orders ──────────────────────────────────── -/

theorem irrefl_of_asym {α : Type} {ltB : α → α → Bool}
    (hasym : ∀ a b, ltB a b = true → ltB b a = false) (a : α) :
    ltB a a = false := by
  cases h : ltB a a with
  | false => rfl
  | true =>
    have h2 := hasym a a h
    rw [h] at h2
    exact absurd h2 (by simp)

theorem lexLtB_asym {α : Type} [DecidableEq α] {ltB : α → α → Bool}
    (hasym : ∀ a b, ltB a b = true → ltB b a = false) :
    ∀ l1 l2, lexLtB ltB l1 l2 = true → lexLtB ltB l2 l1 = false := by
  intro l1
  induction l1 with
  | nil =>
    intro l2 h
    cases l2 with
    | nil => simp [lexLtB] at h
    | cons b bs => simp [lexLtB]
  | cons a as ih =>
    intro l2 h
    cases l2 with
    | nil => simp [lexLtB] at h
    | cons b bs =>
      simp only [lexLtB, Bool.or_eq_true, Bool.and_eq_true, decide_eq_true_eq] at h
      simp only [lexLtB, Bool.or_eq_false_iff, Bool.and_eq_false_iff]
      rcases h with h1 | ⟨rfl, h2⟩
      · refine ⟨hasym a b h1, Or.inl ?_⟩
        rw [decide_eq_false_iff_not]
        intro he
        subst he
        have h3 := hasym _ _ h1
        rw [h3] at h1
        exact absurd h1 (by simp)
      · exact ⟨irrefl_of_asym hasym _, Or.inr (ih bs h2)⟩

theorem lexLtB_trich {α : Type} [DecidableEq α] {ltB : α → α → Bool}
    (htrich : ∀ a b, ltB a b = false → ltB b a = false → a = b) :
    ∀ l1 l2, lexLtB ltB l1 l2 = false → lexLtB ltB l2 l1 = false → l1 = l2 := by
  intro l1
  induction l1 with
  | nil =>
    intro l2 h1 h2
    cases l2 with
    | nil => rfl
    | cons b bs => simp [lexLtB] at h1
  | cons a as ih =>
    intro l2 h1 h2
    cases l2 with
    | nil => simp [lexLtB] at h2
    | cons b bs =>
      simp only [lexLtB, Bool.or_eq_false_iff, Bool.and_eq_false_iff,
        decide_eq_false_iff_not] at h1 h2
      have hab : a = b := htrich a b h1.1 h2.1
      subst hab
      rcases h1.2 with h | h
      · exact absurd rfl h
      · rcases h2.2 with h' | h'
        · exact absurd rfl h'
        · rw [ih bs h h']

theorem lexLtB_trans {α : Type} [DecidableEq α] {ltB : α → α → Bool}
    (htrans : ∀ a b c, ltB a b = true → ltB b c = true → ltB a c = true) :
    ∀ l1 l2 l3, lexLtB ltB l1 l2 = true → lexLtB ltB l2 l3 = true →
      lexLtB ltB l1 l3 = true := by
  intro l1
  induction l1 with
  | nil =>
    intro l2 l3 h1 h2
    cases l2 with
    | nil => simp [lexLtB] at h1
    | cons b bs =>
      cases l3 with
      | nil => simp [lexLtB] at h2
      | cons c cs => simp [lexLtB]
  | cons a as ih =>
    intro l2 l3 h1 h2
    cases l2 with
    | nil => simp [lexLtB] at h1
    | cons b bs =>
      cases l3 with
      | nil => simp [lexLtB] at h2
      | cons c cs =>
        simp only [lexLtB, Bool.or_eq_true, Bool.and_eq_true, decide_eq_true_eq] at h1 h2 ⊢
        rcases h1 with h1 | ⟨rfl, h1⟩
        · rcases h2 with h2 | ⟨rfl, h2⟩
          · exact Or.inl (htrans a b c h1 h2)
          · exact Or.inl h1
        · rcases h2 with h2 | ⟨rfl, h2⟩
          · exact Or.inl h2
          · exact Or.inr ⟨rfl, ih bs cs h1 h2⟩

theorem charLtB_asym (a b : Char) (h : charLtB a b = true) : charLtB b a = false := by
  simp only [charLtB, decide_eq_true_eq] at h
  simp only [charLtB, decide_eq_false_iff_not]
  omega

theorem charLtB_trich (a b : Char) (h1 : charLtB a b = false)
    (h2 : charLtB b a = false) : a = b := by
  simp only [charLtB, decide_eq_false_iff_not, Char.toNat] at h1 h2
  exact Char.eq_of_val_eq (UInt32.ext (by omega))

theorem charLtB_trans (a b c : Char) (h1 : charLtB a b = true)
    (h2 : charLtB b c = true) : charLtB a c = true := by
  simp only [charLtB, decide_eq_true_eq] at h1 h2 ⊢
  omega

theorem strLtB_asym (a b : String) (h : strLtB a b = true) : strLtB b a = false :=
  lexLtB_asym charLtB_asym a.data b.data h

theorem strLtB_trich (a b : String) (h1 : strLtB a b = false)
    (h2 : strLtB b a = false) : a = b := by
  have h := lexLtB_trich charLtB_trich a.data b.data h1 h2
  cases a with
  | mk da =>
    cases b with
    | mk db => exact congrArg String.mk h

theorem strLtB_trans (a b c : String) (h1 : strLtB a b = true)
    (h2 : strLtB b c = true) : strLtB a c = true :=
  lexLtB_trans charLtB_trans a.data b.data c.data h1 h2

theorem segsLtB_asym (a b : List String) (h : segsLtB a b = true) : segsLtB b a = false :=
  lexLtB_asym strLtB_asym a b h

theorem segsLtB_trich (a b : List String) (h1 : segsLtB a b = false)
    (h2 : segsLtB b a = false) : a = b :=
  lexLtB_trich strLtB_trich a b h1 h2

theorem segsLtB_trans (a b c : List String) (h1 : segsLtB a b = true)
    (h2 : segsLtB b c = true) : segsLtB a c = true :=
  lexLtB_trans strLtB_trans a b c h1 h2

theorem keyPairLtB_asym (a b : Bool × String) (h : keyPairLtB a b = true) :
    keyPairLtB b a = false := by
  rcases a with ⟨a1, a2⟩
  rcases b with ⟨b1, b2⟩
  simp only [keyPairLtB, Bool.or_eq_true, Bool.and_eq_true, decide_eq_true_eq] at h
  simp only [keyPairLtB, Bool.or_eq_false_iff, Bool.and_eq_false_iff,
    decide_eq_false_iff_not]
  rcases h with ⟨h1, h2⟩ | ⟨rfl, h2⟩
  · cases a1 <;> cases b1 <;> simp_all
  · refine ⟨by cases a1 <;> simp, Or.inr (strLtB_asym _ _ h2)⟩

theorem keyPairLtB_trans (a b c : Bool × String) (h1 : keyPairLtB a b = true)
    (h2 : keyPairLtB b c = true) : keyPairLtB a c = true := by
  rcases a with ⟨a1, a2⟩
  rcases b with ⟨b1, b2⟩
  rcases c with ⟨c1, c2⟩
  simp only [keyPairLtB, Bool.or_eq_true, Bool.and_eq_true, decide_eq_true_eq] at h1 h2 ⊢
  rcases h1 with ⟨ha, hb⟩ | ⟨rfl, hs⟩
  · rcases h2 with ⟨hb', hc⟩ | ⟨rfl, hs'⟩
    · subst hb; simp_all
    · exact Or.inl ⟨ha, hb⟩
  · rcases h2 with ⟨hb', hc⟩ | ⟨rfl, hs'⟩
    · exact Or.inl ⟨hb', hc⟩
    · exact Or.inr ⟨rfl, strLtB_trans _ _ _ hs hs'⟩

/- ── Lemmas about the stable sort ────────────────────────────────────── -/

theorem insertLe_perm {α : Type} (leB : α → α → Bool) (x : α) :
    ∀ l : List α, (insertLe leB x l).Perm (x :: l) := by
  intro l
  induction l with
  | nil => simp [insertLe]
  | cons y ys ih =>
    simp only [insertLe]
    split
    · exact List.Perm.refl _
    · exact (List.Perm.cons y ih).trans (List.Perm.swap x y ys)

theorem sortedBy_perm {α : Type} (leB : α → α → Bool) :
    ∀ l : List α, (sortedBy leB l).Perm l := by
  intro l
  induction l with
  | nil => exact List.Perm.refl _
  | cons x xs ih =>
    exact (insertLe_perm leB x (sortedBy leB xs)).trans (List.Perm.cons x ih)

theorem mem_insertLe {α : Type} {leB : α → α → Bool} {x z : α} {l : List α}
    (h : z ∈ insertLe leB x l) : z = x ∨ z ∈ l := by
  have := (insertLe_perm leB x l).mem_iff.mp h
  simpa using this

theorem insertLe_pairwise {α : Type} {leB : α → α → Bool}
    (htot : ∀ a b, leB a b = false → leB b a = true)
    (htrans : ∀ a b c, leB a b = true → leB b c = true → leB a c = true)
    (x : α) :
    ∀ l : List α, l.Pairwise (fun a b => leB a b = true) →
      (insertLe leB x l).Pairwise (fun a b => leB a b = true) := by
  intro l
  induction l with
  | nil => intro _; simp [insertLe]
  | cons y ys ih =>
    intro hl
    rw [List.pairwise_cons] at hl
    simp only [insertLe]
    split
    · rename_i hxy
      rw [List.pairwise_cons]
      refine ⟨?_, List.pairwise_cons.mpr hl⟩
      intro z hz
      rcases List.mem_cons.mp hz with rfl | hz
      · exact hxy
      · exact htrans x y z hxy (hl.1 z hz)
    · rename_i hxy
      rw [List.pairwise_cons]
      refine ⟨?_, ih hl.2⟩
      intro z hz
      rcases mem_insertLe hz with rfl | hz
      · exact htot _ y (by simpa using hxy)
      · exact hl.1 z hz

theorem sortedBy_pairwise {α : Type} {leB : α → α → Bool}
    (htot : ∀ a b, leB a b = false → leB b a = true)
    (htrans : ∀ a b c, leB a b = true → leB b c = true → leB a c = true) :
    ∀ l : List α, (sortedBy leB l).Pairwise (fun a b => leB a b = true) := by
  intro l
  induction l with
  | nil => simp [sortedBy]
  | cons x xs ih => exact insertLe_pairwise htot htrans x _ ih

theorem insertLe_filter_pos {α : Type} {leB : α → α → Bool} {p : α → Bool} {x : α}
    (hpx : p x = true) (hcl : ∀ y, p y = true → leB x y = true) :
    ∀ l : List α, (insertLe leB x l).filter p = x :: l.filter p := by
  intro l
  induction l with
  | nil => simp [insertLe, hpx]
  | cons y ys ih =>
    simp only [insertLe]
    split
    · simp [List.filter_cons, hpx]
    · rename_i hxy
      have hpy : p y = false := by
        cases hy : p y with
        | false => rfl
        | true => exact absurd (hcl y hy) (by simpa using hxy)
      simp [List.filter_cons, hpy, ih]

theorem insertLe_filter_neg {α : Type} {leB : α → α → Bool} {p : α → Bool} {x : α}
    (hpx : p x = false) :
    ∀ l : List α, (insertLe leB x l).filter p = l.filter p := by
  intro l
  induction l with
  | nil => simp [insertLe, hpx]
  | cons y ys ih =>
    simp only [insertLe]
    split
    · simp [List.filter_cons, hpx]
    · simp [List.filter_cons, ih]

theorem sortedBy_filter {α : Type} {leB : α → α → Bool} {p : α → Bool}
    (hcl : ∀ a b, p a = true → p b = true → leB a b = true) :
    ∀ l : List α, (sortedBy leB l).filter p = l.filter p := by
  intro l
  induction l with
  | nil => simp [sortedBy]
  | cons x xs ih =>
    simp only [sortedBy]
    cases hx : p x with
    | true =>
      rw [insertLe_filter_pos hx (fun y hy => hcl x y hx hy), ih]
      simp [List.filter_cons, hx]
    | false =>
      rw [insertLe_filter_neg hx, ih]
      simp [List.filter_cons, hx]

/- ── Claim C1 ────────────────────────────────────────────────────────── -/

/-- C1 (counterexample): with root `/data`, the raw path
`../data-secret/x` resolves to the sibling `/data-secret/x`, which shares
the root's string as a bare prefix but not on a segment boundary — and
`_safe_path` ACCEPTS it instead of failing with a ConfinementError. -/
theorem claimC1_counterexample :
    safePath ["data"] ("../data-secret/x") = Except.ok ["data-secret", "x"] ∧
    segWithinRoot ["data"] ["data-secret", "x"] = false :=
  ⟨rfl, rfl⟩

/-- C1 (amended): the prefix comparison of `_safe_path` is a raw string
`startswith`, not a segment-boundary comparison: every raw path whose
canonical resolution passes the raw string-prefix test is admitted, even
when the resolution is not segment-wise under the root; concretely, root
`/data` admits the sibling `/data-secret/x`. -/
theorem claimC1_holds :
    (∀ (wd : List String) (raw : String),
      segWithinRoot wd (resolvePath wd raw) = false →
      strStartsWith (renderAbs (resolvePath wd raw)) (renderAbs wd) = true →
      safePath wd raw = Except.ok (resolvePath wd raw)) ∧
    safePath ["data"] ("../data-secret/x") = Except.ok ["data-secret", "x"] ∧
    segWithinRoot ["data"] ["data-secret", "x"] = false := by
  refine ⟨?_, rfl, rfl⟩
  intro wd raw hseg hpre
  simp [safePath, hpre]

/-- C1 (witness): the general admission statement applied to root
`/data` and raw path `../data-secret/x`. -/
theorem claimC1_witness :
    safePath ["data"] ("../data-secret/x") =
      Except.ok (resolvePath ["data"] ("../data-secret/x")) :=
  claimC1_holds.1 ["data"] ("../data-secret/x") (by decide) (by decide)

/- ── Claim C2 ────────────────────────────────────────────────────────── -/

/-- C2 (counterexample): the raw path `../work2/x` contains a `..`
segment and resolves to `/work2/x`, outside the root `/work` — yet
`_safe_path` accepts it, because `/work2/x` starts with the string
`/work`. -/
theorem claimC2_counterexample :
    (parseSegs ("../work2/x")).contains ("..") = true ∧
    segWithinRoot ["work"] (resolvePath ["work"] ("../work2/x")) = false ∧
    safePath ["work"] ("../work2/x") = Except.ok ["work2", "x"] :=
  ⟨rfl, rfl, rfl⟩

/-- C2 (amended): for every raw path containing `..` segments whose
canonical resolution fails the raw string-prefix check against the root
(rather than: lies outside the root — sibling roots sharing the string
prefix slip through), `_safe_path` fails with the ConfinementError
naming the offending raw path and the root, and `fs_write_file` on such
a path returns that error and leaves the filesystem unchanged: no file
and no parent directory is created. -/
theorem claimC2_holds (wd : List String) (fs : FS) (raw content : String) (ow : Bool)
    (_hdots : (parseSegs raw).contains ("..") = true)
    (hout : strStartsWith (renderAbs (resolvePath wd raw)) (renderAbs wd) = false) :
    safePath wd raw = Except.error (confinementMsg raw wd) ∧
    fs_write_file wd fs raw content ow = (fs, "Error: " ++ confinementMsg raw wd) := by
  have hsp : safePath wd raw = Except.error (confinementMsg raw wd) := by
    simp [safePath, hout]
  refine ⟨hsp, ?_⟩
  simp [fs_write_file, hsp, handleError]

/-- C2 (witness): root `/work`, raw path `../x`: the resolver rejects it
with the ConfinementError and a write attempt mutates nothing. -/
theorem claimC2_witness :
    safePath ["work"] ("../x") = Except.error (confinementMsg ("../x") ["work"]) ∧
    fs_write_file ["work"] ⟨[(["work"], Node.dir)]⟩ ("../x") ("hi") true =
      (⟨[(["work"], Node.dir)]⟩, "Error: " ++ confinementMsg ("../x") ["work"]) :=
  claimC2_holds ["work"] ⟨[(["work"], Node.dir)]⟩ ("../x") ("hi") true (by decide) (by decide)

/- ── Claim C3 ────────────────────────────────────────────────────────── -/

/-- C3: when a file with content `c` already exists at the resolved
target, `fs_write_file` with `overwrite=false` returns the
AlreadyExistsError message, the state is unchanged (so no parent
directory is created), and the file still holds `c`. -/
theorem claimC3_holds (wd target : List String) (fs : FS) (path c c2 : String)
    (hsafe : safePath wd path = Except.ok target)
    (hfile : fs.lookup target = some (Node.file c)) :
    fs_write_file wd fs path c2 false = (fs, alreadyExistsMsg path) ∧
    (fs_write_file wd fs path c2 false).1.lookup target = some (Node.file c) := by
  have hex : fs.pathExists target = true := by simp [FS.pathExists, hfile]
  have h : fs_write_file wd fs path c2 false = (fs, alreadyExistsMsg path) := by
    simp [fs_write_file, hsafe, hex]
  exact ⟨h, by rw [h]; exact hfile⟩

/-- C3 (witness): overwriting `a.txt` (content `x`) with
`overwrite=false` fails and leaves `x` in place. -/
theorem claimC3_witness :
    fs_write_file ["work"] ⟨[(["work"], Node.dir), (["work", "a.txt"], Node.file ("x"))]⟩
        ("a.txt") ("y") false =
      (⟨[(["work"], Node.dir), (["work", "a.txt"], Node.file ("x"))]⟩,
        alreadyExistsMsg ("a.txt")) ∧
    (fs_write_file ["work"] ⟨[(["work"], Node.dir), (["work", "a.txt"], Node.file ("x"))]⟩
        ("a.txt") ("y") false).1.lookup ["work", "a.txt"] = some (Node.file ("x")) :=
  claimC3_holds ["work"] ["work", "a.txt"] _ ("a.txt") ("x") ("y") rfl rfl

/- ── Claim C8 ────────────────────────────────────────────────────────── -/

/-- C8: `fs_delete_file` on a missing path returns the NotFoundError
message with the state unchanged; on a directory it returns the
IsDirectoryError message and the directory remains on disk. -/
theorem claimC8_holds (wd target : List String) (fs : FS) (path : String)
    (hsafe : safePath wd path = Except.ok target) :
    (fs.lookup target = none →
      fs_delete_file wd fs path = (fs, deleteNotExistMsg path)) ∧
    (fs.lookup target = some Node.dir →
      fs_delete_file wd fs path = (fs, deleteIsDirMsg path) ∧
      (fs_delete_file wd fs path).1.isDirAt target = true) := by
  constructor
  · intro habs
    have hex : fs.pathExists target = false := by simp [FS.pathExists, habs]
    simp [fs_delete_file, hsafe, hex]
  · intro hdir
    have hex : fs.pathExists target = true := by simp [FS.pathExists, hdir]
    have hd : fs.isDirAt target = true := by simp [FS.isDirAt, hdir]
    have h : fs_delete_file wd fs path = (fs, deleteIsDirMsg path) := by
      simp [fs_delete_file, hsafe, hex, hd]
    exact ⟨h, by rw [h]; exact hd⟩

/-- C8 (witness): deleting the missing `a.txt` and the directory `d`. -/
theorem claimC8_witness :
    fs_delete_file ["work"] ⟨[(["work"], Node.dir)]⟩ ("a.txt") =
      (⟨[(["work"], Node.dir)]⟩, deleteNotExistMsg ("a.txt")) ∧
    (fs_delete_file ["work"] ⟨[(["work"], Node.dir), (["work", "d"], Node.dir)]⟩ ("d") =
      (⟨[(["work"], Node.dir), (["work", "d"], Node.dir)]⟩, deleteIsDirMsg ("d")) ∧
      (fs_delete_file ["work"] ⟨[(["work"], Node.dir), (["work", "d"], Node.dir)]⟩
        ("d")).1.isDirAt ["work", "d"] = true) :=
  ⟨(claimC8_holds ["work"] ["work", "a.txt"] _ ("a.txt") rfl).1 rfl,
   (claimC8_holds ["work"] ["work", "d"] _ ("d") rfl).2 rfl⟩

/- ── Claim C10 ───────────────────────────────────────────────────────── -/

theorem mkdirAll_noop (fs : FS) (p : List String)
    (h : p = [] ∨ fs.lookup p = some Node.dir) : mkdirAll fs p = Except.ok fs := by
  rcases h with rfl | h
  · rfl
  · cases p with
    | nil => rfl
    | cons a as =>
      simp [mkdirAll, mkdirAllGo, h]

/-- C10: `fs_write_file` with `overwrite=true` onto an existing
directory passes the overwrite gate (so the failure is not the
AlreadyExistsError), the parent `mkdir` is a no-op, and `write_text`
raises `IsADirectoryError`, which `_handle_error` converts to the
generic classification carrying the exception's type name and message
(not a dedicated is-a-directory response); the state — the directory and
everything in it — is unchanged. -/
theorem claimC10_holds (wd target : List String) (fs : FS) (path content : String)
    (hsafe : safePath wd path = Except.ok target)
    (hdir : fs.lookup target = some Node.dir)
    (hpar : target.dropLast = [] ∨ fs.lookup target.dropLast = some Node.dir) :
    fs_write_file wd fs path content true =
      (fs, handleError (PyExc.isADirectory
        ("[Errno 21] Is a directory: '" ++ renderAbs target ++ "'"))) ∧
    (fs_write_file wd fs path content true).1 = fs := by
  have hmk : mkdirAll fs target.dropLast = Except.ok fs := mkdirAll_noop fs _ hpar
  have hwt : writeText fs target content =
      Except.error (PyExc.isADirectory
        ("[Errno 21] Is a directory: '" ++ renderAbs target ++ "'")) := by
    simp [writeText, hdir]
  have h : fs_write_file wd fs path content true =
      (fs, handleError (PyExc.isADirectory
        ("[Errno 21] Is a directory: '" ++ renderAbs target ++ "'"))) := by
    simp [fs_write_file, hsafe, hmk, hwt]
  exact ⟨h, by rw [h]⟩

/-- C10 (witness): writing onto the directory `d` with
`overwrite=true`. -/
theorem claimC10_witness :
    fs_write_file ["work"] ⟨[(["work"], Node.dir), (["work", "d"], Node.dir)]⟩
        ("d") ("y") true =
      (⟨[(["work"], Node.dir), (["work", "d"], Node.dir)]⟩,
        handleError (PyExc.isADirectory
          ("[Errno 21] Is a directory: '" ++ renderAbs ["work", "d"] ++ "'"))) ∧
    (fs_write_file ["work"] ⟨[(["work"], Node.dir), (["work", "d"], Node.dir)]⟩
        ("d") ("y") true).1 = ⟨[(["work"], Node.dir), (["work", "d"], Node.dir)]⟩ :=
  claimC10_holds ["work"] ["work", "d"] _ ("d") ("y") rfl rfl (Or.inr rfl)

/- ── Claim C9 ────────────────────────────────────────────────────────── -/

theorem normEOL_id (l : List Char) (hb : ∀ c ∈ l, lineBreakChar c = true → c = '\n') :
    normEOL l = l := by
  induction l with
  | nil => rfl
  | cons c rest ih =>
    have hcr : c ≠ '\r' := by
      intro h
      subst h
      have := hb '\r' (List.mem_cons_self _ _) (by decide)
      exact absurd this (by decide)
    have hrest : ∀ x ∈ rest, lineBreakChar x = true → x = '\n' :=
      fun x hx => hb x (List.mem_cons_of_mem _ hx)
    cases rest with
    | nil => rfl
    | cons d ds =>
      have : ¬(c = '\r' ∧ d = '\n') := fun hcd => hcr hcd.1
      simp only [normEOL, if_neg this]
      rw [ih hrest]

theorem splitBreaks_length_of_nl :
    ∀ l : List Char, (∀ c ∈ l, lineBreakChar c = true → c = '\n') →
      l.getLast? = some '\n' → (splitBreaks l).length = l.count '\n' := by
  intro l
  induction l with
  | nil => intro _ hlast; simp at hlast
  | cons c rest ih =>
    intro hb hlast
    have hrest : ∀ x ∈ rest, lineBreakChar x = true → x = '\n' :=
      fun x hx => hb x (List.mem_cons_of_mem _ hx)
    by_cases hc : c = '\n'
    · subst hc
      cases rest with
      | nil => decide
      | cons d ds =>
        have hlast' : (d :: ds).getLast? = some '\n' := by
          rw [List.getLast?_cons_cons] at hlast
          exact hlast
        have hlen := ih hrest hlast'
        have hunf : splitBreaks ('\n' :: d :: ds) = [] :: splitBreaks (d :: ds) := rfl
        rw [hunf, List.length_cons, hlen]
        simp [List.count_cons]
    · have hbc : lineBreakChar c = false := by
        cases h : lineBreakChar c with
        | false => rfl
        | true => exact absurd (hb c (List.mem_cons_self _ _) h) hc
      have hrne : rest ≠ [] := by
        intro h
        subst h
        simp [List.getLast?] at hlast
        exact hc hlast
      have hlast' : rest.getLast? = some '\n' := by
        cases rest with
        | nil => exact absurd rfl hrne
        | cons d ds =>
          rw [List.getLast?_cons_cons] at hlast
          exact hlast
      have hlen := ih hrest hlast'
      have hmem : '\n' ∈ rest := List.mem_of_mem_getLast? (by simp [hlast'])
      have hpos : 1 ≤ rest.count '\n' := by
        have := List.count_eq_zero.not.mpr (by simp [hmem] : ¬ '\n' ∉ rest)
        omega
      have hne2 : splitBreaks rest ≠ [] := by
        intro h
        rw [h] at hlen
        simp at hlen
        omega
      cases hsb : splitBreaks rest with
      | nil => exact absurd hsb hne2
      | cons l0 ls =>
        simp only [splitBreaks, hbc, Bool.false_eq_true, if_false, hsb]
        rw [hsb] at hlen
        simp only [List.length_cons] at hlen ⊢
        simp [List.count_cons, hc]
        omega

/-- C9 (counterexample): the text `a\rb\n` ends in a newline, but the
reported line count (newlines + 1 = 2) is NOT one greater than
readFile's `totalLines` — `splitlines` also splits at the `\r`, so
`totalLines` is already 2. -/
theorem claimC9_counterexample :
    ("a\rb\n".data.getLast? = some '\n') ∧
    ¬ (writeFileLineCount ("a\rb\n") = (pySplitlines ("a\rb\n")).length + 1) :=
  ⟨rfl, by decide⟩

/-- C9 (amended): the line count reported by `fs_write_file` and by
`fs_file_info` is newline count + 1 (the same formula in both places),
so empty content is reported as 1 line; and for text that ends in a
newline AND whose line-boundary characters are all `\n` (texts
containing `\r` or other boundaries are counted differently by
`splitlines`), this count is one greater than readFile's
`totalLines`. -/
theorem claimC9_holds :
    (∀ c : String, writeFileLineCount c = fileInfoLineCount c) ∧
    writeFileLineCount ("") = 1 ∧
    (∀ s : String, (∀ c ∈ s.data, lineBreakChar c = true → c = '\n') →
      s.data.getLast? = some '\n' →
      writeFileLineCount s = (pySplitlines s).length + 1) := by
  refine ⟨fun c => rfl, rfl, ?_⟩
  intro s hb hlast
  have h1 : (splitBreaks (normEOL s.data)).length = s.data.count '\n' := by
    rw [normEOL_id s.data hb]
    exact splitBreaks_length_of_nl s.data hb hlast
  simp [writeFileLineCount, pySplitlines, splitlinesList, h1]

/-- C9 (witness): the third part applied to the text `x\n`. -/
theorem claimC9_witness :
    writeFileLineCount ("x\n") = (pySplitlines ("x\n")).length + 1 :=
  claimC9_holds.2.2 ("x\n") (by decide) rfl

/- ── Claim C4 ────────────────────────────────────────────────────────── -/

/-- C4: reading a stored file with `max_lines = m` (validated `ge=1`):
when the `splitlines` line count strictly exceeds `m`, the result is the
first `m` lines joined with `\n` plus the truncation note naming `m` and
the full total; otherwise the full text with an empty truncation
note. -/
theorem claimC4_holds (wd target : List String) (fs : FS) (path text : String) (m : Nat)
    (hsafe : safePath wd path = Except.ok target)
    (hfile : fs.lookup target = some (Node.file text))
    (hm : 1 ≤ m) :
    ((pySplitlines text).length > m →
      fs_read_file wd fs path (some m) =
        Except.ok ⟨String.intercalate ("\n") ((pySplitlines text).take m),
          truncNote m (pySplitlines text).length⟩) ∧
    ((pySplitlines text).length ≤ m →
      fs_read_file wd fs path (some m) = Except.ok ⟨text, ""⟩) := by
  have hnd : fs.isDirAt target = false := by simp [FS.isDirAt, hfile]
  constructor
  · intro hgt
    have hc : m ≠ 0 ∧ m < (pySplitlines text).length := ⟨by omega, by omega⟩
    simp [fs_read_file, hsafe, hnd, hfile, hc]
  · intro hle
    have hc : ¬(m ≠ 0 ∧ m < (pySplitlines text).length) := by
      push_neg
      intro _
      omega
    simp [fs_read_file, hsafe, hnd, hfile, hc]

/-- C4 (witness): the spec scenario — `/work/a.txt` holding
`hello\nworld`, read with `max_lines=1`, yields `hello` plus the note
`Showing 1 of 2 lines`. -/
theorem claimC4_witness :
    fs_read_file ["work"] ⟨[(["work"], Node.dir), (["work", "a.txt"], Node.file ("hello\nworld"))]⟩
        ("a.txt") (some 1) =
      Except.ok ⟨"hello", "\n\n[Showing 1 of 2 lines. Set max_lines higher to see more.]"⟩ := by
  have h := (claimC4_holds ["work"] ["work", "a.txt"]
      ⟨[(["work"], Node.dir), (["work", "a.txt"], Node.file ("hello\nworld"))]⟩
      ("a.txt") ("hello\nworld") 1 rfl rfl (by decide)).1 (by decide)
  rw [h]
  rfl

/- ── Claim C7 ─────────────────────────────────────────────────────────────────── -/

theorem bnot_true {b : Bool} (h : (!b) = true) : b = false := by
  cases b
  · rfl
  · simp at h

theorem bnot_false {b : Bool} (h : (!b) = false) : b = true := by
  cases b
  · simp at h
  · rfl

theorem keyPairLtB_trich (a b : Bool × String) (h1 : keyPairLtB a b = false)
    (h2 : keyPairLtB b a = false) : a = b := by
  rcases a with ⟨a1, a2⟩
  rcases b with ⟨b1, b2⟩
  simp only [keyPairLtB, Bool.or_eq_false_iff, Bool.and_eq_false_iff,
    decide_eq_false_iff_not] at h1 h2
  have hb : a1 = b1 := by
    cases a1 <;> cases b1 <;> simp_all
  subst hb
  have hs1 : strLtB a2 b2 = false := by
    rcases h1.2 with h | h
    · exact absurd rfl h
    · exact h
  have hs2 : strLtB b2 a2 = false := by
    rcases h2.2 with h | h
    · exact absurd rfl h
    · exact h
  rw [strLtB_trich a2 b2 hs1 hs2]

theorem keyedLe_total {α κ : Type} (k : α → κ) (ltB : κ → κ → Bool)
    (hasym : ∀ x y, ltB x y = true → ltB y x = false) (a b : α)
    (h : (!(ltB (k b) (k a))) = false) : (!(ltB (k a) (k b))) = true := by
  have hx := bnot_false h
  simp [hasym _ _ hx]

theorem keyedLe_trans {α κ : Type} (k : α → κ) (ltB : κ → κ → Bool)
    (htrich : ∀ x y, ltB x y = false → ltB y x = false → x = y)
    (htrans : ∀ x y z, ltB x y = true → ltB y z = true → ltB x z = true)
    (a b c : α)
    (h1 : (!(ltB (k b) (k a))) = true) (h2 : (!(ltB (k c) (k b))) = true) :
    (!(ltB (k c) (k a))) = true := by
  have h1' := bnot_true h1
  have h2' := bnot_true h2
  cases hca : ltB (k c) (k a) with
  | false => rfl
  | true =>
    by_cases hbc : ltB (k b) (k c) = true
    · have hba := htrans _ _ _ hbc hca
      rw [hba] at h1'
      exact absurd h1' (by simp)
    · have hbc' : ltB (k b) (k c) = false := by
        cases h : ltB (k b) (k c) with
        | false => rfl
        | true => exact absurd h hbc
      have heq := htrich _ _ hbc' h2'
      rw [heq] at h1'
      rw [hca] at h1'
      exact absurd h1' (by simp)

theorem listDirLeB_total (a b : List String × Node) (h : listDirLeB a b = false) :
    listDirLeB b a = true :=
  keyedLe_total childKey keyPairLtB keyPairLtB_asym a b h

theorem listDirLeB_trans (a b c : List String × Node) (h1 : listDirLeB a b = true)
    (h2 : listDirLeB b c = true) : listDirLeB a c = true :=
  keyedLe_trans childKey keyPairLtB keyPairLtB_trich keyPairLtB_trans a b c h1 h2

theorem pathsLeB_total (p q : List String) (h : pathsLeB p q = false) : pathsLeB q p = true :=
  keyedLe_total id segsLtB segsLtB_asym p q h

theorem pathsLeB_trans (p q r : List String) (h1 : pathsLeB p q = true)
    (h2 : pathsLeB q r = true) : pathsLeB p r = true :=
  keyedLe_trans id segsLtB segsLtB_trich segsLtB_trans p q r h1 h2

theorem globSortLeB_total (a b : List String × Node) (h : globSortLeB a b = false) :
    globSortLeB b a = true :=
  keyedLe_total Prod.fst segsLtB segsLtB_asym a b h

theorem globSortLeB_trans (a b c : List String × Node) (h1 : globSortLeB a b = true)
    (h2 : globSortLeB b c = true) : globSortLeB a c = true :=
  keyedLe_trans Prod.fst segsLtB segsLtB_trich segsLtB_trans a b c h1 h2

theorem entryKey_eq (wd : List String) (e : List String × Node) :
    (!(fileInfoOf wd e.1 e.2).is_dir, pyLower (fileInfoOf wd e.1 e.2).name) = childKey e := by
  rcases e with ⟨p, n⟩
  cases n
  · rfl
  · rfl

/-- C7: for every directory that is segment-wise under the working root
(the precondition of `relative_to` inside `_file_info`; a
string-prefix-escape directory admitted by `_safe_path` would instead
make `relative_to` raise and the tool return an error string) and every
enumeration order of its children, `fs_list_directory` returns the
direct children ordered by the stable two-key sort with primary key
`is_file` ascending (directories first, `false < true`) and secondary
key the lowercase name ascending: the returned entries are pairwise
non-descending in that key order, they are a permutation of the
hidden-filtered children, and the sort is stable (elements of any fixed
key keep their enumeration order). -/
theorem claimC7_holds (wd target : List String) (fs : FS) (path : String) (sh : Bool)
    (hsafe : safePath wd path = Except.ok target)
    (hdir : fs.isDirAt target = true)
    (_hpre : List.isPrefixOf wd target = true) :
    ∃ out : ListDirOut,
      fs_list_directory wd fs path sh = Except.ok out ∧
      out.entries.Pairwise (fun a b =>
        keyPairLtB (!b.is_dir, pyLower b.name) (!a.is_dir, pyLower a.name) = false) ∧
      out.entries.Perm (((iterdirChildren fs target).filter
        (fun e => sh || !(strStartsWith (nameOf e.1) (".")))).map
          (fun e => fileInfoOf wd e.1 e.2)) ∧
      (∀ k : Bool × String,
        (sortedBy listDirLeB (iterdirChildren fs target)).filter
            (fun e => (sh || !(strStartsWith (nameOf e.1) ("."))) && childKey e == k) =
          (iterdirChildren fs target).filter
            (fun e => (sh || !(strStartsWith (nameOf e.1) ("."))) && childKey e == k)) := by
  have hout : fs_list_directory wd fs path sh =
      Except.ok ⟨pathStr path,
        (((sortedBy listDirLeB (iterdirChildren fs target)).filter
          (fun e => sh || !(strStartsWith (nameOf e.1) (".")))).map
            (fun e => fileInfoOf wd e.1 e.2)).length,
        ((sortedBy listDirLeB (iterdirChildren fs target)).filter
          (fun e => sh || !(strStartsWith (nameOf e.1) (".")))).map
            (fun e => fileInfoOf wd e.1 e.2)⟩ := by
    simp [fs_list_directory, hsafe, hdir]
  refine ⟨_, hout, ?_, ?_, ?_⟩
  · have hp0 : (sortedBy listDirLeB (iterdirChildren fs target)).Pairwise
        (fun a b => listDirLeB a b = true) :=
      sortedBy_pairwise listDirLeB_total listDirLeB_trans _
    have hp1 := hp0.filter (fun e => sh || !(strStartsWith (nameOf e.1) (".")))
    rw [List.pairwise_map]
    refine hp1.imp ?_
    intro a b hab
    rw [entryKey_eq wd b, entryKey_eq wd a]
    exact bnot_true hab
  · exact ((sortedBy_perm listDirLeB (iterdirChildren fs target)).filter _).map _
  · intro k
    apply sortedBy_filter
    intro a b ha hb
    rw [Bool.and_eq_true] at ha hb
    have ha2 := eq_of_beq ha.2
    have hb2 := eq_of_beq hb.2
    have hk : childKey a = childKey b := by rw [ha2, hb2]
    show (!(keyPairLtB (childKey b) (childKey a))) = true
    rw [← hk, irrefl_of_asym keyPairLtB_asym (childKey a)]
    rfl

/-- C7 (witness): listing `/work` with children `b.txt`, `Adir`,
`.hidden`, `a.txt` in scrambled enumeration order. -/
theorem claimC7_witness :
    ∃ out : ListDirOut,
      fs_list_directory ["work"] sampleListFS (".") false = Except.ok out ∧
      out.entries.Pairwise (fun a b =>
        keyPairLtB (!b.is_dir, pyLower b.name) (!a.is_dir, pyLower a.name) = false) ∧
      out.entries.Perm (((iterdirChildren sampleListFS ["work"]).filter
        (fun e => false || !(strStartsWith (nameOf e.1) (".")))).map
          (fun e => fileInfoOf ["work"] e.1 e.2)) ∧
      (∀ k : Bool × String,
        (sortedBy listDirLeB (iterdirChildren sampleListFS ["work"])).filter
            (fun e => (false || !(strStartsWith (nameOf e.1) ("."))) && childKey e == k) =
          (iterdirChildren sampleListFS ["work"]).filter
            (fun e => (false || !(strStartsWith (nameOf e.1) ("."))) && childKey e == k)) :=
  claimC7_holds ["work"] ["work"] sampleListFS (".") false rfl rfl (by decide)

/- ── Claim C6 ────────────────────────────────────────────────────────── -/

/-- C6 (counterexample): with `recursive=false`, searching the pattern
`**/b.txt` still returns `sub/b.txt`, which is NOT a direct child of the
root — pathlib's `glob` gives `**` its recursive meaning even in the
non-recursive branch. -/
theorem claimC6_counterexample :
    fs_search_files ["work"] sampleTreeFS ("**/b.txt") (".") false =
      Except.ok ⟨"**/b.txt", ".", false, 1, [⟨"b.txt", "sub/b.txt", false⟩]⟩ := rfl

theorem globMatchSegs_single (p : List Char) (rel : List (List Char)) (hne : p ≠ starStarSeg)
    (h : globMatchSegs [p] rel = true) : rel.length = 1 := by
  simp only [globMatchSegs, if_neg hne] at h
  cases rel with
  | nil => simp at h
  | cons s ss =>
    rw [Bool.and_eq_true] at h
    have h2 := h.2
    simp only [globMatchSegs, List.isEmpty_iff] at h2
    simp [h2]

theorem searchOnlyFiles (wd : List String) (fs : FS) (pattern directory : String)
    (recursive : Bool) (out : SearchOut)
    (hout : fs_search_files wd fs pattern directory recursive = Except.ok out) :
    ∀ m ∈ out.found, m.is_dir = false := by
  intro m hm
  unfold fs_search_files at hout
  split at hout
  · exact absurd hout (by simp)
  · split at hout
    · exact absurd hout (by simp)
    · have h2 := (Except.ok.inj hout).symm
      rw [h2] at hm
      rcases List.mem_map.mp hm with ⟨e, he, rfl⟩
      have hef := (List.mem_filter.mp he).2
      rcases e with ⟨pth, n⟩
      cases n with
      | file t => rfl
      | dir => simp [isFileNode] at hef

theorem globSingleSegDirect (fs : FS) (root : List String) (pattern seg : String)
    (hp : parseSegs pattern = [seg]) (hne : seg ≠ ("**")) :
    ∀ e ∈ globEntries fs root pattern, e.1.length = root.length + 1 := by
  intro e he
  simp only [globEntries, List.mem_filter] at he
  rcases he with ⟨_, hcond⟩
  rw [Bool.and_eq_true] at hcond
  rcases hcond with ⟨hpre, hmatch⟩
  simp only [globEntryMatch, Bool.and_eq_true] at hmatch
  have hm1 := hmatch.1
  rw [hp] at hm1
  have hne' : seg.data ≠ starStarSeg := by
    intro h
    apply hne
    cases seg with
    | mk d => exact congrArg String.mk h
  have hlen := globMatchSegs_single seg.data _ hne' (by simpa using hm1)
  rw [List.length_drop, List.length_map] at hlen
  have hle : root.length ≤ e.1.length := by
    have : root <+: e.1 := by
      rw [← List.isPrefixOf_iff_prefix]
      exact hpre
    exact this.length_le
  omega

/-- C6 (amended): `**` in a pattern DOES have recursive meaning in
pathlib's `glob`, so recursion is not controlled solely by the
`recursive` flag: with `recursive=false` the pattern `**/b.txt` reaches
the non-direct child `sub/b.txt`.  What does hold: only plain files are
ever returned, never directories; and with `recursive=false` and a
single-segment pattern other than `**`, only direct children of the
directory can match. -/
theorem claimC6_holds :
    (∀ (wd : List String) (fs : FS) (pattern directory : String) (recursive : Bool)
        (out : SearchOut),
      fs_search_files wd fs pattern directory recursive = Except.ok out →
      ∀ m ∈ out.found, m.is_dir = false) ∧
    (∀ (fs : FS) (root : List String) (pattern seg : String),
      parseSegs pattern = [seg] → seg ≠ ("**") →
      ∀ e ∈ globEntries fs root pattern, e.1.length = root.length + 1) ∧
    fs_search_files ["work"] sampleTreeFS ("**/b.txt") (".") false =
      Except.ok ⟨"**/b.txt", ".", false, 1, [⟨"b.txt", "sub/b.txt", false⟩]⟩ :=
  ⟨searchOnlyFiles, globSingleSegDirect, rfl⟩

/-- C6 (witness): the only-files part applied to the `**/b.txt` search
of the sample tree, and the direct-children part applied to the
single-segment pattern `*.txt`. -/
theorem claimC6_witness :
    (∀ m ∈ (SearchOut.mk ("**/b.txt") (".") false 1
        [⟨"b.txt", "sub/b.txt", false⟩]).found, m.is_dir = false) ∧
    (∀ e ∈ globEntries sampleTreeFS ["work"] ("*.txt"), e.1.length = ["work"].length + 1) :=
  ⟨claimC6_holds.1 ["work"] sampleTreeFS ("**/b.txt") (".") false _ rfl,
   claimC6_holds.2.1 sampleTreeFS ["work"] ("*.txt") ("*.txt") rfl (by decide)⟩

/- ── Claim C5 ────────────────────────────────────────────────────────── -/

theorem scanLinesCapped_take (needle : String) (cs : Bool) (maxR : Nat) (fileRel : String) :
    ∀ (lines : List String) (lineno : Nat) (acc : List GrepMatch),
      acc.length < maxR →
      scanLinesCapped needle cs maxR fileRel lines lineno acc =
        acc ++ (grepLineMatches needle cs fileRel lines lineno).take (maxR - acc.length) := by
  intro lines
  induction lines with
  | nil =>
    intro lineno acc h
    simp [scanLinesCapped, grepLineMatches]
  | cons line rest ih =>
    intro lineno acc h
    by_cases hhit : lineHitB needle cs line = true
    · simp only [scanLinesCapped, grepLineMatches, hhit, if_true]
      by_cases hle : maxR ≤ acc.length + 1
      · have hlen1 : (acc ++ [(⟨fileRel, lineno, pyRstrip line⟩ : GrepMatch)]).length
            = acc.length + 1 := by simp
        rw [if_pos (by rw [hlen1]; exact hle)]
        have hk : maxR - acc.length = 1 := by omega
        rw [hk]
        have : List.take 1 ((⟨fileRel, lineno, pyRstrip line⟩ : GrepMatch) ::
            grepLineMatches needle cs fileRel rest (lineno + 1)) =
            [⟨fileRel, lineno, pyRstrip line⟩] := by
          rw [List.take_succ_cons, List.take_zero]
        rw [this]
      · have hlen1 : (acc ++ [(⟨fileRel, lineno, pyRstrip line⟩ : GrepMatch)]).length
            = acc.length + 1 := by simp
        rw [if_neg (by rw [hlen1]; exact hle)]
        rw [ih (lineno + 1) _ (by rw [hlen1]; omega)]
        have hk : maxR - acc.length = (maxR - (acc.length + 1)) + 1 := by omega
        rw [hk, List.take_succ_cons, hlen1]
        simp [List.append_assoc]
    · simp only [scanLinesCapped, grepLineMatches, if_neg hhit]
      exact ih (lineno + 1) acc h

theorem grepLoop_take (fs : FS) (wd : List String) (needle : String) (cs : Bool) (maxR : Nat) :
    ∀ (paths : List (List String)) (acc : List GrepMatch) (n : Nat),
      acc.length < maxR →
      (grepLoop fs wd needle cs maxR paths acc n).1 =
        acc ++ (grepAllMatches fs wd needle cs paths).take (maxR - acc.length) := by
  intro paths
  induction paths with
  | nil =>
    intro acc n h
    simp [grepLoop, grepAllMatches]
  | cons p rest ih =>
    intro acc n h
    cases hl : fs.lookup p with
    | none =>
      simp only [grepLoop, grepAllMatches, hl]
      rw [List.nil_append]
      exact ih acc (n) h
    | some node =>
      cases node with
      | dir =>
        simp only [grepLoop, grepAllMatches, hl]
        rw [List.nil_append]
        exact ih acc (n) h
      | file text =>
        simp only [grepLoop, grepAllMatches, hl]
        rw [scanLinesCapped_take needle cs maxR (relPathStr wd p) (pySplitlines text) 1 acc h]
        by_cases hcap : maxR ≤ (acc ++ (grepLineMatches needle cs (relPathStr wd p)
            (pySplitlines text) 1).take (maxR - acc.length)).length
        · rw [if_pos hcap]
          have hlen : (acc ++ (grepLineMatches needle cs (relPathStr wd p)
              (pySplitlines text) 1).take (maxR - acc.length)).length =
              acc.length + min (maxR - acc.length)
                (grepLineMatches needle cs (relPathStr wd p) (pySplitlines text) 1).length := by
            simp [List.length_take]
          have hfmk : maxR - acc.length ≤
              (grepLineMatches needle cs (relPathStr wd p) (pySplitlines text) 1).length := by
            rw [hlen] at hcap
            omega
          rw [List.take_append_of_le_length hfmk]
        · rw [if_neg hcap]
          have hlen : (acc ++ (grepLineMatches needle cs (relPathStr wd p)
              (pySplitlines text) 1).take (maxR - acc.length)).length =
              acc.length + min (maxR - acc.length)
                (grepLineMatches needle cs (relPathStr wd p) (pySplitlines text) 1).length := by
            simp [List.length_take]
          have hlt : (acc ++ (grepLineMatches needle cs (relPathStr wd p)
              (pySplitlines text) 1).take (maxR - acc.length)).length < maxR := by omega
          rw [ih _ (n + 1) hlt]
          have hfml : (grepLineMatches needle cs (relPathStr wd p)
              (pySplitlines text) 1).length < maxR - acc.length := by
            rw [hlen] at hcap
            omega
          have htk : (grepLineMatches needle cs (relPathStr wd p)
              (pySplitlines text) 1).take (maxR - acc.length) =
              grepLineMatches needle cs (relPathStr wd p) (pySplitlines text) 1 :=
            List.take_of_length_le (by omega)
          rw [htk, List.take_append_eq_append_take]
          have htk2 : (grepLineMatches needle cs (relPathStr wd p)
              (pySplitlines text) 1).take (maxR - acc.length) =
              grepLineMatches needle cs (relPathStr wd p) (pySplitlines text) 1 :=
            List.take_of_length_le (by omega)
          rw [htk2]
          have harith : maxR - (acc ++ grepLineMatches needle cs (relPathStr wd p)
              (pySplitlines text) 1).length =
              maxR - acc.length - (grepLineMatches needle cs (relPathStr wd p)
                (pySplitlines text) 1).length := by
            simp only [List.length_append]
            omega
          rw [harith, List.append_assoc]

/-- C5: for every state, needle, pattern and `max_results ≥ 1` (the
validated range), over a search root that is segment-wise under the
working root (the precondition of `relative_to` when a match is
formatted; a string-prefix-escape root admitted by `_safe_path` would
instead make `relative_to` raise on the first match and the tool return
an error string), `fs_grep` succeeds and its result list is exactly the
`max_results`-prefix of the full match list taken in encounter order
(sorted file paths, then line order within each file, never re-sorted);
hence it never holds more than `max_results` matches, and `truncated` is
true iff the number of returned matches equals `max_results`. -/
theorem claimC5_holds (wd : List String) (fs : FS) (text directory filePattern : String)
    (cs : Bool) (maxR : Nat) (root : List String)
    (hsafe : safePath wd directory = Except.ok root)
    (_hpre : List.isPrefixOf wd root = true)
    (hmax : 1 ≤ maxR) :
    ∃ g : GrepOut,
      fs_grep wd fs text directory filePattern cs maxR = Except.ok g ∧
      g.results = (grepAllMatches fs wd (if cs then text else pyLower text) cs
        (grepSortedPaths fs root filePattern)).take maxR ∧
      g.results.length ≤ maxR ∧
      (g.truncated = true ↔ g.results.length = maxR) ∧
      (grepSortedPaths fs root filePattern).Pairwise (fun p q => pathsLeB p q = true) := by
  have hres : (grepLoop fs wd (if cs then text else pyLower text) cs maxR
      (grepSortedPaths fs root filePattern) [] 0).1 =
      (grepAllMatches fs wd (if cs then text else pyLower text) cs
        (grepSortedPaths fs root filePattern)).take maxR := by
    rw [grepLoop_take fs wd (if cs then text else pyLower text) cs maxR
      (grepSortedPaths fs root filePattern) [] 0 (by simpa using hmax)]
    simp
  have hout : fs_grep wd fs text directory filePattern cs maxR =
      Except.ok ⟨text,
        (grepLoop fs wd (if cs then text else pyLower text) cs maxR
          (grepSortedPaths fs root filePattern) [] 0).2,
        (grepLoop fs wd (if cs then text else pyLower text) cs maxR
          (grepSortedPaths fs root filePattern) [] 0).1.length,
        decide (maxR ≤ (grepLoop fs wd (if cs then text else pyLower text) cs maxR
          (grepSortedPaths fs root filePattern) [] 0).1.length),
        (grepLoop fs wd (if cs then text else pyLower text) cs maxR
          (grepSortedPaths fs root filePattern) [] 0).1⟩ := by
    simp [fs_grep, hsafe]
  have hlen : (grepLoop fs wd (if cs then text else pyLower text) cs maxR
      (grepSortedPaths fs root filePattern) [] 0).1.length ≤ maxR := by
    rw [hres, List.length_take]
    omega
  have hiff : (decide (maxR ≤ (grepLoop fs wd (if cs then text else pyLower text) cs maxR
      (grepSortedPaths fs root filePattern) [] 0).1.length) = true) ↔
      (grepLoop fs wd (if cs then text else pyLower text) cs maxR
        (grepSortedPaths fs root filePattern) [] 0).1.length = maxR := by
    rw [decide_eq_true_eq]
    omega
  exact ⟨_, hout, hres, hlen, hiff, sortedBy_pairwise pathsLeB_total pathsLeB_trans _⟩

/-- C5 (witness): grepping `TODO` case-insensitively over the sample
tree with `max_results = 2`. -/
theorem claimC5_witness :
    ∃ g : GrepOut,
      fs_grep ["work"] sampleGrepFS ("TODO") (".") ("*.*") false 2 = Except.ok g ∧
      g.results = (grepAllMatches sampleGrepFS ["work"]
        (if false then ("TODO") else pyLower ("TODO")) false
        (grepSortedPaths sampleGrepFS ["work"] ("*.*"))).take 2 ∧
      g.results.length ≤ 2 ∧
      (g.truncated = true ↔ g.results.length = 2) ∧
      (grepSortedPaths sampleGrepFS ["work"] ("*.*")).Pairwise
        (fun p q => pathsLeB p q = true) :=
  claimC5_holds ["work"] sampleGrepFS ("TODO") (".") ("*.*") false 2 ["work"] rfl (by decide)
    (by decide)
